import Mathlib

/-!
Shallow embedding of the Mainzelhandler client library (the
`PseudonymHandler` module of mainzelhandler.js) together with the
server-side token endpoint `getPseudonymizationURL` of
`PseudonymizationController.java`, used to check the specification
claims about the patient pseudonymization state machine.

Modelling conventions:
* JS `Date` values are modelled as normalized calendar components
  (year, 1-based month, day of month, milliseconds within the day) in a
  UTC environment; `getTime` is computed through the standard
  civil-calendar day numbering, so two dates are `getTime`-equal exactly
  when their components agree.
* JS exceptions are modelled with `Except JSError`; in-place mutation of
  patient objects is modelled by returning the updated record.
* `fetch` and the external record-linkage service are external
  collaborators: their responses are inputs of the modelled functions.
-/

namespace Mainzelhandler

/-- Day number (days since 1970-01-01) of a civil date, the standard
civil-calendar correspondence underlying JS time values.  Divisions are
Euclidean, which agrees with the floor convention here. -/
def daysFromCivil (y m d : Int) : Int :=
  let yAdj := y - (if m ≤ 2 then 1 else 0)
  let era := Int.ediv yAdj 400
  let yoe := yAdj - era * 400
  let mp := m + (if m > 2 then -3 else 9)
  let doy := Int.ediv (153 * mp + 2) 5 + d - 1
  let doe := yoe * 365 + Int.ediv yoe 4 - Int.ediv yoe 100 + doy
  era * 146097 + doe - 719468

/-- Civil date (year, 1-based month, day of month) of a day number,
inverse correspondence to `daysFromCivil`. -/
def civilFromDays (z : Int) : Int × Int × Int :=
  let z2 := z + 719468
  let era := Int.ediv z2 146097
  let doe := z2 - era * 146097
  let yoe := Int.ediv (doe - Int.ediv doe 1460 + Int.ediv doe 36524 - Int.ediv doe 146096) 365
  let y := yoe + era * 400
  let doy := doe - (365 * yoe + Int.ediv yoe 4 - Int.ediv yoe 100)
  let mp := Int.ediv (5 * doy + 2) 153
  let d := doy - Int.ediv (153 * mp + 2) 5 + 1
  let m := mp + (if mp < 10 then 3 else -9)
  (y + (if m ≤ 2 then 1 else 0), m, d)

/-- Gregorian leap-year test. -/
def isLeapYear (y : Int) : Bool :=
  (Int.emod y 4 == 0 && Int.emod y 100 != 0) || Int.emod y 400 == 0

/-- Number of days in a month of a given year. -/
def daysInMonth (y m : Int) : Int :=
  if m = 2 then (if isLeapYear y then 29 else 28)
  else if m = 4 ∨ m = 6 ∨ m = 9 ∨ m = 11 then 30
  else 31

/-- A JS `Date`, as normalized calendar components in a UTC environment:
year, 1-based month, day of month, and milliseconds within the day. -/
structure JSDate where
  year : Int
  month : Int
  day : Int
  msInDay : Int
deriving DecidableEq, Repr

namespace JSDate

/-- `Date.prototype.getFullYear`. -/
def getFullYear (d : JSDate) : Int := d.year

/-- `Date.prototype.getMonth` (0-based month index). -/
def getMonth (d : JSDate) : Int := d.month - 1

/-- `Date.prototype.getDate` (day of month). -/
def getDate (d : JSDate) : Int := d.day

/-- `Date.prototype.getTime`: milliseconds since the epoch. -/
def getTime (d : JSDate) : Int :=
  daysFromCivil d.year d.month d.day * 86400000 + d.msInDay

/-- The components are an actual calendar date with an in-range
time of day. -/
def valid (d : JSDate) : Prop :=
  1 ≤ d.month ∧ d.month ≤ 12 ∧ 1 ≤ d.day ∧ d.day ≤ daysInMonth d.year d.month ∧
    0 ≤ d.msInDay ∧ d.msInDay < 86400000

instance (d : JSDate) : Decidable d.valid := by
  unfold valid; infer_instance

end JSDate

/-- `new Date(n)` for a numeric argument: the date holding the time
value `n` (milliseconds since the epoch). -/
def msToJSDate (n : Int) : JSDate :=
  let c := civilFromDays (Int.ediv n 86400000)
  ⟨c.1, c.2.1, c.2.2, Int.emod n 86400000⟩

/-- Decimal digit character for a value below ten. -/
def digitChar : Nat → Char
  | 0 => '0'
  | 1 => '1'
  | 2 => '2'
  | 3 => '3'
  | 4 => '4'
  | 5 => '5'
  | 6 => '6'
  | 7 => '7'
  | 8 => '8'
  | _ => '9'

/-- Numeric value of a decimal digit character. -/
def digitVal (c : Char) : Nat := c.toNat - 48

/-- Decimal digit characters of a natural number, most significant
first, with an explicit fuel (an upper bound on the value) so that the
recursion is structural. -/
def natDigitsGo : Nat → Nat → List Char
  | 0, n => [digitChar n]
  | fuel + 1, n =>
    if n < 10 then [digitChar n]
    else natDigitsGo fuel (n / 10) ++ [digitChar (n % 10)]

/-- Decimal digit characters of a natural number, most significant
first, as produced by JS `Number.prototype.toString`. -/
def natDigits (n : Nat) : List Char := natDigitsGo n n

/-- Decimal rendering of a natural number. -/
def natPrint (n : Nat) : String := String.mk (natDigits n)

/-- JS `toString` on an integer number. -/
def jsIntToString (n : Int) : String :=
  if n < 0 then "-" ++ natPrint (-n).toNat else natPrint n.toNat

/-- The two-digit padding applied to day and month strings in
`getPseudonym`: a single-character string gets a leading zero. -/
def pad2Str (s : String) : String :=
  if s.length = 1 then "0" ++ s else s

/-- Character-level parser for the ISO `YYYY-MM-DD` pattern: exactly
ten characters, two dashes, all other positions digits, and the
components in calendar range. -/
def parseISOChars : List Char → Option JSDate
  | [y1, y2, y3, y4, s1, m1, m2, s2, d1, d2] =>
    if s1 = '-' ∧ s2 = '-' ∧ y1.isDigit = true ∧ y2.isDigit = true ∧ y3.isDigit = true ∧
        y4.isDigit = true ∧ m1.isDigit = true ∧ m2.isDigit = true ∧ d1.isDigit = true ∧
        d2.isDigit = true then
      let y : Int := ((((digitVal y1 * 10 + digitVal y2) * 10 + digitVal y3) * 10 +
        digitVal y4 : Nat) : Int)
      let m : Int := ((digitVal m1 * 10 + digitVal m2 : Nat) : Int)
      let d : Int := ((digitVal d1 * 10 + digitVal d2 : Nat) : Int)
      if 1 ≤ m ∧ m ≤ 12 ∧ 1 ≤ d ∧ d ≤ daysInMonth y m then
        some ⟨y, m, d, 0⟩
      else none
    else none
  | _ => none

/-- JS `new Date(s)` on a date-only string of the ISO format
`YYYY-MM-DD` (the format the library itself produces in
`handleDepseudonymization`): UTC midnight of the given civil date, or
an invalid date when the components are out of range.  Other textual
formats accepted by JS engines are outside the modelled flows. -/
def jsParseDate (s : String) : Option JSDate := parseISOChars s.data

/-- Decidable equality of `Except` results, so that concrete runs can
be checked by `decide`. -/
instance instDecEqExcept {ε α : Type} [DecidableEq ε] [DecidableEq α] :
    DecidableEq (Except ε α) := fun x y =>
  match x, y with
  | .ok a, .ok b =>
    if h : a = b then .isTrue (by rw [h]) else .isFalse (by simp [h])
  | .error a, .error b =>
    if h : a = b then .isTrue (by rw [h]) else .isFalse (by simp [h])
  | .ok _, .error _ => .isFalse (by simp)
  | .error _, .ok _ => .isFalse (by simp)

/-- A JS value in an argument position: a string, a number, a `Date`,
or anything else (`other` stands for every value that is none of the
three, e.g. `null`, `undefined`, booleans or plain objects). -/
inductive JSVal where
  | str (s : String)
  | num (n : Int)
  | date (d : JSDate)
  | other
deriving DecidableEq, Repr

/-- A thrown JS exception: `Error` or `TypeError` with its message. -/
inductive JSError where
  | err (msg : String)
  | typeErr (msg : String)
deriving DecidableEq, Repr

/-- `new Date(birthday)` on an argument that passed the `typeof` checks
of `createIDAT`: parse strings, take numbers as time values, copy
dates.  `none` is the invalid date (`isNaN`). -/
def jsNewDate : JSVal → Option JSDate
  | .str s => jsParseDate s
  | .num n => some (msToJSDate n)
  | .date d => some d
  | .other => none

/-- JS `String.prototype.trim`: strip leading and trailing whitespace,
computed on the character list (so that concrete runs reduce). -/
def jsTrim (s : String) : String :=
  String.mk (((s.data.dropWhile Char.isWhitespace).reverse.dropWhile
    Char.isWhitespace).reverse)

/-- JS `String.prototype.split` on a single-character separator,
computed on the character list. -/
def splitOnChar (c : Char) : List Char → List (List Char)
  | [] => [[]]
  | x :: xs =>
    if x = c then [] :: splitOnChar c xs
    else
      match splitOnChar c xs with
      | [] => [[x]]
      | h :: t => (x :: h) :: t

/-- The IDAT of a patient (identifying data), as built by
`createIDAT`. -/
structure IDAT where
  firstname : String
  lastname : String
  birthday : JSDate
deriving DecidableEq, Repr

/-- `service.createIDAT(firstname, lastname, birthday)`: validates and
normalizes the identifying data.  `now` is the current time value
(`new Date().getTime()`) at the moment of the call. -/
def createIDAT (now : Int) (firstname lastname birthday : JSVal) : Except JSError IDAT :=
  match firstname with
  | .str f =>
    if jsTrim f = "" then .error (.err "Invalid firstname!")
    else
      match lastname with
      | .str l =>
        if jsTrim l = "" then .error (.err "Invalid lastname!")
        else
          match birthday with
          | .other => .error (.typeErr "Invalid birthday!")
          | b =>
            match jsNewDate b with
            | none => .error (.err "Invalid birthday!")
            | some d =>
              if d.getTime > now then .error (.err "Invalid birthday!")
              else .ok ⟨jsTrim f, jsTrim l, d⟩
      | _ => .error (.err "Invalid lastname!")
  | _ => .error (.err "Invalid firstname!")

/-- The numeric patient status codes of the frozen `PatientStatus`
object. -/
def PatientStatus.IDAT_CONFLICT : Int := -3

/-- Status: the stored tokenURL is invalid. -/
def PatientStatus.TOKEN_INVALID : Int := -2

/-- Status: the IDAT is invalid. -/
def PatientStatus.IDAT_INVALID : Int := -1

/-- Status: the patient got created and has valid IDAT. -/
def PatientStatus.CREATED : Int := 0

/-- Status: the pseudonym has been created. -/
def PatientStatus.PSEUDONYMIZED : Int := 1

/-- Status: the server processed the MDAT successfully. -/
def PatientStatus.PROCESSED : Int := 11

/-- Status: the server did not process the MDAT successfully. -/
def PatientStatus.NOT_PROCESSED : Int := 12

/-- Status: patient was found in the database. -/
def PatientStatus.FOUND : Int := 21

/-- Status: no patient with the given IDAT. -/
def PatientStatus.NOT_FOUND : Int := 22

/-- A patient object, with the properties assigned by
`createPatient`. -/
structure Patient where
  status : Int
  sureness : Bool
  pseudonym : Option String
  idat : IDAT
  mdat : String
  tentative : Bool
  tokenURL : Option String
  tokenUseCallback : Option Bool
deriving DecidableEq, Repr

/-- `service.createPatient(firstname, lastname, birthday, mdat)`.  The
`mdat` parameter is optional (`none` models `undefined`/`null`, which
`mdat ?? ""` replaces by the empty string). -/
def createPatient (now : Int) (firstname lastname birthday : JSVal) (mdat : Option JSVal) :
    Except JSError Patient :=
  match createIDAT now firstname lastname birthday with
  | .error e => .error e
  | .ok idat =>
    match mdat.getD (.str "") with
    | .str m =>
      .ok { status := PatientStatus.CREATED, sureness := false, pseudonym := none,
            idat := idat, mdat := m, tentative := false, tokenURL := none,
            tokenUseCallback := none }
    | _ => .error (.typeErr "Invalid MDAT!")

/-- The per-key comparison loop of `updateIDAT` over the three IDAT
properties: strings are compared with `===`, the birthday dates by
their time values.  The loop resets the patient as soon as one key
differs, so its net effect only depends on whether all keys agree. -/
def idatFieldsEqual (a b : IDAT) : Bool :=
  a.firstname == b.firstname && a.lastname == b.lastname &&
    a.birthday.getTime == b.birthday.getTime

/-- `service.updateIDAT(patient, firstname, lastname, birthday)`. -/
def updateIDAT (now : Int) (p : Patient) (firstname lastname birthday : JSVal) :
    Except JSError Patient :=
  match createIDAT now firstname lastname birthday with
  | .error e => .error e
  | .ok idat =>
    if p.status > 0 && !(idatFieldsEqual p.idat idat) then
      .ok { p with pseudonym := none, status := PatientStatus.CREATED, idat := idat }
    else
      .ok { p with idat := idat }

/-- `service.updateMDAT(patient, mdat)`.  The `mdat` parameter is
optional (`mdat ?? ""`). -/
def updateMDAT (p : Patient) (mdat : Option String) : Patient :=
  let m := mdat.getD ""
  if p.mdat ≠ m then
    let p1 := { p with mdat := m }
    if p1.status > 1 then
      { p1 with
        status :=
          if p1.status ≠ PatientStatus.PSEUDONYMIZED && p1.tokenUseCallback == some true then
            PatientStatus.CREATED
          else PatientStatus.PSEUDONYMIZED }
    else p1
  else p

/-- A response of the identity-submission `fetch` in `getPseudonym`:
the HTTP status together with the parts of the parsed body the code
reads (`newId` for API version 1.0, `[0].idString` and `[0].tentative`
otherwise) and the response text. -/
structure HttpResponse where
  status : Nat
  newId : String
  idString : String
  tentative : Bool
  text : String
deriving DecidableEq, Repr

/-- `requestURL.split("=")[1]`, used when the token is
callback-mediated: the pseudonym is taken from the token URL itself.
The modelled flows only reach this with a present URL containing
`"="`. -/
def callbackPseudonym (requestURL : Option String) : String :=
  match requestURL with
  | some url => String.mk ((splitOnChar '=' url.data).getD 1 [])
  | none => ""

/-- `getPseudonym(patient)`: submits the identifying data against
`patient.tokenURL` and interprets the response.  The `fetch` result is
an input: `none` models an unreachable service (`response` undefined).
The returned pair is the patient as mutated so far together with the
outcome: `Bool` for a regular return, `JSError` for a throw. -/
def getPseudonym (apiVersion : String) (p : Patient) (fetchResult : Option HttpResponse) :
    Patient × Except JSError Bool :=
  match fetchResult with
  | none => (p, .error (.err "Can't connect to Mainzelliste!"))
  | some resp =>
    let requestURL := p.tokenURL
    if resp.status = 201 then
      let pseudonym :=
        if p.tokenUseCallback == some true then callbackPseudonym requestURL
        else if apiVersion = "1.0" then resp.newId
        else resp.idString
      let p1 := { p with pseudonym := some pseudonym,
                         status := PatientStatus.PSEUDONYMIZED,
                         tentative := resp.tentative,
                         tokenURL := none }
      (p1, .ok (p1.status == PatientStatus.PSEUDONYMIZED))
    else if resp.status = 400 then
      let p1 := { p with status := PatientStatus.IDAT_INVALID, tokenURL := requestURL }
      (p1, .ok (p1.status == PatientStatus.PSEUDONYMIZED))
    else if resp.status = 401 then
      let p1 := { p with status := PatientStatus.TOKEN_INVALID, tokenURL := none,
                         tokenUseCallback := none }
      (p1, .ok (p1.status == PatientStatus.PSEUDONYMIZED))
    else if resp.status = 409 then
      let p1 := { p with status := PatientStatus.IDAT_CONFLICT, tokenURL := requestURL }
      (p1, .ok (p1.status == PatientStatus.PSEUDONYMIZED))
    else
      (p, .error (.err resp.text))

/-- `patient.statusCode`, as read by `resolveConflicts`.  Patient
objects carry no `statusCode` property (the status field is named
`status`), so this access always yields `undefined`. -/
def statusCode (_ : Patient) : Option Int := none

/-- The caller-supplied patient map (`Map<patientKey, Patient>`), as an
association list in insertion order; keys are modelled as naturals. -/
abbrev PMap := List (Nat × Patient)

/-- A patient absent from the map.  `Map.get` on a missing key yields
`undefined` in JS; the modelled flows only read keys that are
present. -/
def defaultPatient : Patient :=
  ⟨PatientStatus.CREATED, false, none, ⟨"", "", ⟨1970, 1, 1, 0⟩⟩, "", false, none, none⟩

/-- `patients.get(key)`. -/
def pmapGet (m : PMap) (k : Nat) : Patient :=
  match List.lookup k m with
  | some p => p
  | none => defaultPatient

/-- `patients.set(key, value)` semantics for the association-list map:
replace in place when present, append otherwise. -/
def pmapSet (m : PMap) (k : Nat) (p : Patient) : PMap :=
  match m with
  | [] => [(k, p)]
  | (a, b) :: rest => if a = k then (a, p) :: rest else (a, b) :: pmapSet rest k p

/-- The parsed body of the `/tokens/addPatient` response consumed by
`createPseudonyms`: the callback flag and the token URLs. -/
structure TokenResponse where
  useCallback : Bool
  urlTokens : List String
deriving DecidableEq, Repr

/-- Result of `createPseudonyms`: the patient map after the in-place
mutations, the two key lists of the source, and (instrumentation) the
list of `(key, tokenURL)` pairs in the order the tokens were redeemed
by `getPseudonym`. -/
structure CPResult where
  patients : PMap
  pseudonymized : List Nat
  conflicts : List Nat
  redemptions : List (Nat × Option String)
deriving DecidableEq, Repr

/-- The loop of `createPseudonyms`: position `i` assigns
`response.urlTokens[i]` and the callback flag to the `i`-th requested
patient and redeems that URL via `getPseudonym`.  `fetches i` is the
response of the `i`-th submission. -/
def createPseudonymsGo (apiVersion : String) (tr : TokenResponse)
    (fetches : Nat → Option HttpResponse) :
    PMap → List Nat → Nat → Except JSError CPResult
  | m, [], _ => .ok ⟨m, [], [], []⟩
  | m, k :: rest, i =>
    let p := pmapGet m k
    let p1 := { p with tokenUseCallback := some tr.useCallback,
                       tokenURL := tr.urlTokens.get? i }
    match getPseudonym apiVersion p1 (fetches i) with
    | (_, .error e) => .error e
    | (p2, .ok success) =>
      match createPseudonymsGo apiVersion tr fetches (pmapSet m k p2) rest (i + 1) with
      | .error e => .error e
      | .ok r =>
        .ok ⟨r.patients,
             if success then k :: r.pseudonymized else r.pseudonymized,
             if success then r.conflicts else k :: r.conflicts,
             (k, tr.urlTokens.get? i) :: r.redemptions⟩

/-- `createPseudonyms(patients, patientKeys)`.  When no key is
requested, no token request happens and the result is empty; otherwise
`tr` is the `/tokens/addPatient` response. -/
def createPseudonyms (apiVersion : String) (tr : TokenResponse)
    (fetches : Nat → Option HttpResponse) (m : PMap) (keys : List Nat) :
    Except JSError CPResult :=
  if keys.isEmpty then .ok ⟨m, [], [], []⟩
  else createPseudonymsGo apiVersion tr fetches m keys 0

/-- Result of `resolveConflicts`: the map, the two key lists, the
`invalidTokens` list routed to `createPseudonyms` (instrumented as
`retokenized`), and the `(key, tokenURL)` pairs redeemed directly. -/
structure RCResult where
  patients : PMap
  pseudonymized : List Nat
  conflicts : List Nat
  retokenized : List Nat
  directRedemptions : List (Nat × Option String)
deriving DecidableEq, Repr

/-- The per-key loop of `resolveConflicts`: keys whose patient has
`statusCode === TOKEN_INVALID` go to `invalidTokens`, all others are
resubmitted directly with their stored `tokenURL`.  `fetches k` is the
response of patient `k`'s submission. -/
def resolveConflictsGo (apiVersion : String) (fetches : Nat → Option HttpResponse) :
    PMap → List Nat → Except JSError RCResult
  | m, [] => .ok ⟨m, [], [], [], []⟩
  | m, k :: rest =>
    let p := pmapGet m k
    if statusCode p == some PatientStatus.TOKEN_INVALID then
      match resolveConflictsGo apiVersion fetches m rest with
      | .error e => .error e
      | .ok r => .ok ⟨r.patients, r.pseudonymized, r.conflicts, k :: r.retokenized,
                      r.directRedemptions⟩
    else
      match getPseudonym apiVersion p (fetches k) with
      | (_, .error e) => .error e
      | (p2, .ok success) =>
        match resolveConflictsGo apiVersion fetches (pmapSet m k p2) rest with
        | .error e => .error e
        | .ok r =>
          .ok ⟨r.patients,
               if success then k :: r.pseudonymized else r.pseudonymized,
               if success then r.conflicts else k :: r.conflicts,
               r.retokenized,
               (k, p.tokenURL) :: r.directRedemptions⟩

/-- `resolveConflicts(patients, patientKeys)`.  After the loop, a
non-empty `invalidTokens` list is routed through `createPseudonyms`
with a fresh token response `trFresh`.  At that point the source
destructures properties (`createdPseudonymized`, `createdConflicts`)
that do not exist on the result of `createPseudonyms`, so it would
concatenate `undefined`; the branch is unreachable because
`patient.statusCode` is always `undefined` (see
`resolveConflicts_never_retokenizes`), and the appended `undefined`
values are not modelled. -/
def resolveConflicts (apiVersion : String) (fetches : Nat → Option HttpResponse)
    (trFresh : TokenResponse) (freshFetches : Nat → Option HttpResponse)
    (m : PMap) (keys : List Nat) : Except JSError RCResult :=
  match resolveConflictsGo apiVersion fetches m keys with
  | .error e => .error e
  | .ok r =>
    if r.retokenized.isEmpty then .ok r
    else
      match createPseudonyms apiVersion trFresh freshFetches r.patients r.retokenized with
      | .error e => .error e
      | .ok cp => .ok ⟨cp.patients, r.pseudonymized, r.conflicts, r.retokenized,
                       r.directRedemptions⟩

/-- `PseudonymizationController.getPseudonymizationURL(type, amount)`
(server side, Java): builds one token URL per requested token.
`tokenIds i` is the token id obtained from the Mainzelliste for the
`i`-th request. -/
def javaGetPseudonymizationURL (mainzellisteUrl : String) (tokenIds : Nat → String)
    (amount : Nat) : List String :=
  (List.range amount).map (fun i => mainzellisteUrl ++ "patients?tokenId=" ++ tokenIds i)

/-- The form fields of the identity submission built by
`getPseudonym` from the patient's IDAT (day and month zero-padded to
two digits). -/
structure FormFields where
  vorname : String
  nachname : String
  geburtstag : String
  geburtsmonat : String
  geburtsjahr : String
deriving DecidableEq, Repr

/-- The request-body construction of `getPseudonym` (lines building
`requestBody`), restricted to the identity fields. -/
def patientFormFields (idat : IDAT) : FormFields :=
  { vorname := idat.firstname,
    nachname := idat.lastname,
    geburtstag := pad2Str (jsIntToString idat.birthday.getDate),
    geburtsmonat := pad2Str (jsIntToString (idat.birthday.getMonth + 1)),
    geburtsjahr := jsIntToString idat.birthday.getFullYear }

/-- The IDAT reconstruction of `handleDepseudonymization` from the
fields of one response entry:
`createIDAT(vorname, nachname, geburtsjahr + "-" + geburtsmonat + "-" + geburtstag)`. -/
def reconstructIDAT (now : Int) (f : FormFields) : Except JSError IDAT :=
  createIDAT now (.str f.vorname) (.str f.nachname)
    (.str (f.geburtsjahr ++ "-" ++ f.geburtsmonat ++ "-" ++ f.geburtstag))

/-- What the record-linkage service stores for one resolvable
pseudonym: the identity fields it echoes back, and the tentative
flag. -/
structure MLRecord where
  fields : FormFields
  tentative : Bool
deriving DecidableEq, Repr

/-- First-occurrence deduplication, with an explicit fuel argument so
that the recursion is structural (the fuel is an upper bound on the
list length). -/
def distinctKeepFirstGo : Nat → List String → List String
  | _, [] => []
  | 0, _ :: _ => []
  | n + 1, p :: rest => p :: distinctKeepFirstGo n (rest.filter (fun q => q ≠ p))

/-- First-occurrence deduplication. -/
def distinctKeepFirst (l : List String) : List String :=
  distinctKeepFirstGo l.length l

/-- One entry of the depseudonymized output map: the reconstructed
IDAT and the service's tentative flag. -/
structure DepsEntry where
  idat : IDAT
  tentative : Bool
deriving DecidableEq, Repr

/-- The output map (`Map<string, {idat, tentative}>`) as an association
list in insertion order. -/
abbrev DMap := List (String × DepsEntry)

/-- `depseudonymized.set(pseudonym, entry)`. -/
def dmapSet (m : DMap) (k : String) (v : DepsEntry) : DMap :=
  match m with
  | [] => [(k, v)]
  | (a, b) :: rest => if a = k then (a, v) :: rest else (a, b) :: dmapSet rest k v

/-- Modelled from the spec: the server-side `/tokens/readPatients`
endpoint (its implementation is not under the sources; only the client
is).  Per the spec it deduplicates the supplied pseudonyms, separates
the ones the service already knows to be invalid into
`invalidPseudonyms`, and returns one multi-use read-token URL — the
empty string when nothing remains to read.  `known` is the service's
record store. -/
def serverReadPatients (known : String → Option MLRecord) (readURL : String)
    (pseudonyms : List String) : String × List String :=
  let ds := distinctKeepFirst pseudonyms
  let invalid := ds.filter (fun p => (known p).isNone)
  let valid := ds.filter (fun p => (known p).isSome)
  (if valid.isEmpty then "" else readURL, invalid)

/-- Modelled from the spec: the identity-retrieval `GET` against the
read-token URL returns one entry per resolvable requested pseudonym,
carrying the stored fields and `ids: [{idString, tentative}]` with
`idString` the pseudonym itself. -/
def serverPatientData (known : String → Option MLRecord) (valid : List String) :
    List (String × MLRecord) :=
  valid.filterMap (fun p => (known p).map (fun r => (p, r)))

/-- The response-processing loop of `handleDepseudonymization`: each
entry's fields are turned back into an IDAT via `createIDAT` (whose
exceptions propagate) and stored in the map under the entry's
pseudonym. -/
def buildDepsMap (now : Int) : List (String × MLRecord) → DMap → Except JSError DMap
  | [], acc => .ok acc
  | (p, r) :: rest, acc =>
    match reconstructIDAT now r.fields with
    | .error e => .error e
    | .ok idat => buildDepsMap now rest (dmapSet acc p ⟨idat, r.tentative⟩)

/-- `handleDepseudonymization(pseudonyms)`: empty input short-circuits;
otherwise the (spec-modelled) read-token exchange happens, an empty URL
short-circuits with the invalid list, and otherwise the retrieved
entries are folded into the output map. -/
def handleDepseudonymization (now : Int) (known : String → Option MLRecord)
    (readURL : String) (pseudonyms : List String) :
    Except JSError (DMap × List String) :=
  if pseudonyms.isEmpty then .ok ([], [])
  else
    let res := serverReadPatients known readURL pseudonyms
    if res.1 = "" then .ok ([], res.2)
    else
      let valid := (distinctKeepFirst pseudonyms).filter (fun p => (known p).isSome)
      match buildDepsMap now (serverPatientData known valid) [] with
      | .error e => .error e
      | .ok dm => .ok (dm, res.2)

/-- One operation of the service applied to a single patient record.
`submitNew` is the per-record body of `createPseudonyms` (assigning the
callback flag and a token URL, then redeeming it); `resubmit` is the
direct resubmission path of `resolveConflicts`; `sendResult` and
`requestResult` are the status assignments of `send` and `request`
after the server answered (`found = some mdat` when a record with the
patient's pseudonym came back). -/
inductive Op where
  | updIDAT (now : Int) (firstname lastname birthday : JSVal)
  | updMDAT (mdat : Option String)
  | submitNew (useCallback : Bool) (url : Option String) (resp : Option HttpResponse)
  | resubmit (resp : Option HttpResponse)
  | sendResult (success : Bool)
  | requestResult (found : Option String)
deriving Repr

/-- Whether an operation submits the patient's identity to the
record-linkage service (redeems a token via `getPseudonym`). -/
def Op.isSubmission : Op → Bool
  | .submitNew _ _ _ => true
  | .resubmit _ => true
  | _ => false

/-- Whether an operation is an `updateIDAT` call. -/
def Op.isUpdIDAT : Op → Bool
  | .updIDAT _ _ _ _ => true
  | _ => false

/-- Whether an operation is an `updateMDAT` call. -/
def Op.isUpdMDAT : Op → Bool
  | .updMDAT _ => true
  | _ => false

/-- The effect of one operation on one patient record, straight from
the corresponding source functions; thrown exceptions propagate. -/
def stepOp (apiVersion : String) (p : Patient) : Op → Except JSError Patient
  | .updIDAT now f l b => updateIDAT now p f l b
  | .updMDAT m => .ok (updateMDAT p m)
  | .submitNew cb url resp =>
    let p1 := { p with tokenUseCallback := some cb, tokenURL := url }
    match getPseudonym apiVersion p1 resp with
    | (_, .error e) => .error e
    | (p2, .ok _) => .ok p2
  | .resubmit resp =>
    match getPseudonym apiVersion p resp with
    | (_, .error e) => .error e
    | (p2, .ok _) => .ok p2
  | .sendResult success =>
    .ok { p with status := if success then PatientStatus.PROCESSED
                           else PatientStatus.NOT_PROCESSED }
  | .requestResult found =>
    match found with
    | none => .ok { p with status := PatientStatus.NOT_FOUND }
    | some m => .ok { p with mdat := m, status := PatientStatus.FOUND }

/-- Run a sequence of operations on a patient record. -/
def runTrace (apiVersion : String) (p : Patient) : List Op → Except JSError Patient
  | [] => .ok p
  | op :: rest =>
    match stepOp apiVersion p op with
    | .error e => .error e
    | .ok p1 => runTrace apiVersion p1 rest

/-! ### Sample values used by the witnesses -/

/-- A concrete valid IDAT. -/
def sampleIDAT : IDAT := ⟨"Ada", "Lovelace", ⟨2000, 1, 2, 0⟩⟩

/-- A concrete patient holding a token, as after `createPseudonyms`
assigned a token URL. -/
def samplePatient : Patient :=
  ⟨PatientStatus.CREATED, false, none, sampleIDAT, "", false,
    some "https://ml/patients?tokenId=t1", some false⟩

/-- A concrete submission response with a configurable status. -/
def sampleResp (st : Nat) : HttpResponse := ⟨st, "PSY1", "PSY1", false, "err"⟩

/-! ### C1: the four defined outcomes of `getPseudonym` -/

/-- C1: For every patient record submitted by `getPseudonym`, each of
the four defined service outcomes updates the record as the outcome
table specifies: 201 sets status PSEUDONYMIZED, takes pseudonym and
tentative flag from the response body (from the token URL instead when
the token is callback-mediated) and sets tokenURL to null; 400 sets
IDAT_INVALID and keeps the same token (the request URL is the stored
tokenURL); 401 sets TOKEN_INVALID and discards the token; 409 sets
IDAT_CONFLICT and keeps the same token. -/
theorem getPseudonym_outcomes (apiVersion : String) (p : Patient) (r : HttpResponse) :
    (r.status = 201 →
      (getPseudonym apiVersion p (some r)).1 =
        { p with
            pseudonym := some (if p.tokenUseCallback == some true
                               then callbackPseudonym p.tokenURL
                               else if apiVersion = "1.0" then r.newId else r.idString),
            status := PatientStatus.PSEUDONYMIZED,
            tentative := r.tentative,
            tokenURL := none } ∧
      (getPseudonym apiVersion p (some r)).2 = .ok true) ∧
    (r.status = 400 →
      (getPseudonym apiVersion p (some r)).1 =
        { p with status := PatientStatus.IDAT_INVALID, tokenURL := p.tokenURL } ∧
      (getPseudonym apiVersion p (some r)).2 = .ok false) ∧
    (r.status = 401 →
      (getPseudonym apiVersion p (some r)).1 =
        { p with status := PatientStatus.TOKEN_INVALID, tokenURL := none,
                 tokenUseCallback := none } ∧
      (getPseudonym apiVersion p (some r)).2 = .ok false) ∧
    (r.status = 409 →
      (getPseudonym apiVersion p (some r)).1 =
        { p with status := PatientStatus.IDAT_CONFLICT, tokenURL := p.tokenURL } ∧
      (getPseudonym apiVersion p (some r)).2 = .ok false) := by
  refine ⟨fun h => ?_, fun h => ?_, fun h => ?_, fun h => ?_⟩ <;>
    simp [getPseudonym, h, PatientStatus.PSEUDONYMIZED, PatientStatus.IDAT_INVALID,
      PatientStatus.TOKEN_INVALID, PatientStatus.IDAT_CONFLICT]

/-- Witness for C1 at a concrete patient and the four concrete
responses. -/
theorem getPseudonym_outcomes_witness :
    ((getPseudonym "3.0" samplePatient (some (sampleResp 201))).1.status =
        PatientStatus.PSEUDONYMIZED ∧
      (getPseudonym "3.0" samplePatient (some (sampleResp 201))).1.pseudonym = some "PSY1") ∧
    (getPseudonym "3.0" samplePatient (some (sampleResp 400))).1.status =
      PatientStatus.IDAT_INVALID ∧
    (getPseudonym "3.0" samplePatient (some (sampleResp 401))).1.tokenURL = none ∧
    (getPseudonym "3.0" samplePatient (some (sampleResp 409))).1.tokenURL =
      samplePatient.tokenURL := by
  have h201 := (getPseudonym_outcomes "3.0" samplePatient (sampleResp 201)).1 rfl
  have h400 := (getPseudonym_outcomes "3.0" samplePatient (sampleResp 400)).2.1 rfl
  have h401 := (getPseudonym_outcomes "3.0" samplePatient (sampleResp 401)).2.2.1 rfl
  have h409 := (getPseudonym_outcomes "3.0" samplePatient (sampleResp 409)).2.2.2 rfl
  refine ⟨⟨?_, ?_⟩, ?_, ?_, ?_⟩
  · rw [h201.1]
  · rw [h201.1]; decide
  · rw [h400.1]
  · rw [h401.1]
  · rw [h409.1]

/-! ### C3: defined outcomes return, everything else raises -/

/-- C3: `getPseudonym` returns success or failure without throwing for
each of the four defined response statuses and throws (only) for
transport failure; any other response status fails the operation with
the unknown-error condition (an `Error` carrying the response text) and
leaves the patient record, in particular its status field,
unchanged. -/
theorem getPseudonym_error_contract (apiVersion : String) (p : Patient) :
    (∀ r : HttpResponse,
      r.status = 201 ∨ r.status = 400 ∨ r.status = 401 ∨ r.status = 409 →
      ∃ b, (getPseudonym apiVersion p (some r)).2 = .ok b) ∧
    (∀ r : HttpResponse,
      ¬(r.status = 201 ∨ r.status = 400 ∨ r.status = 401 ∨ r.status = 409) →
      getPseudonym apiVersion p (some r) = (p, .error (.err r.text))) ∧
    getPseudonym apiVersion p none = (p, .error (.err "Can't connect to Mainzelliste!")) := by
  refine ⟨fun r h => ?_, fun r h => ?_, rfl⟩
  · rcases h with h | h | h | h <;> simp [getPseudonym, h]
  · have h1 : ¬r.status = 201 := fun hh => h (Or.inl hh)
    have h2 : ¬r.status = 400 := fun hh => h (Or.inr (Or.inl hh))
    have h3 : ¬r.status = 401 := fun hh => h (Or.inr (Or.inr (Or.inl hh)))
    have h4 : ¬r.status = 409 := fun hh => h (Or.inr (Or.inr (Or.inr hh)))
    simp [getPseudonym, h1, h2, h3, h4]

/-- Witness for C3: a defined status returns, an unknown status (500)
raises the unknown-error condition with the patient untouched. -/
theorem getPseudonym_error_contract_witness :
    (∃ b, (getPseudonym "3.0" samplePatient (some (sampleResp 401))).2 = .ok b) ∧
    getPseudonym "3.0" samplePatient (some (sampleResp 500)) =
      (samplePatient, .error (.err "err")) := by
  have h := getPseudonym_error_contract "3.0" samplePatient
  exact ⟨h.1 (sampleResp 401) (by decide), h.2.1 (sampleResp 500) (by decide)⟩

/-! ### C10: frame of the three failure outcomes -/

/-- C10: on each failure outcome of `getPseudonym` (status 400, 401,
409) the patient's pseudonym, idat, mdat, sureness and tentative fields
are unchanged; tokenUseCallback is also unchanged except on 401, where
it (and tokenURL) become null, and on 400/409 the stored tokenURL keeps
its value (it is re-assigned the request URL, which is that same stored
value). -/
theorem getPseudonym_failure_frame (apiVersion : String) (p : Patient) (r : HttpResponse)
    (h : r.status = 400 ∨ r.status = 401 ∨ r.status = 409) :
    (getPseudonym apiVersion p (some r)).1.pseudonym = p.pseudonym ∧
    (getPseudonym apiVersion p (some r)).1.idat = p.idat ∧
    (getPseudonym apiVersion p (some r)).1.mdat = p.mdat ∧
    (getPseudonym apiVersion p (some r)).1.sureness = p.sureness ∧
    (getPseudonym apiVersion p (some r)).1.tentative = p.tentative ∧
    (r.status ≠ 401 →
      (getPseudonym apiVersion p (some r)).1.tokenUseCallback = p.tokenUseCallback ∧
      (getPseudonym apiVersion p (some r)).1.tokenURL = p.tokenURL) ∧
    (r.status = 401 →
      (getPseudonym apiVersion p (some r)).1.tokenUseCallback = none ∧
      (getPseudonym apiVersion p (some r)).1.tokenURL = none) := by
  rcases h with h | h | h <;> simp [getPseudonym, h]

/-- Witness for C10 at a concrete patient and a 409 response. -/
theorem getPseudonym_failure_frame_witness :
    (getPseudonym "3.0" samplePatient (some (sampleResp 409))).1.pseudonym =
        samplePatient.pseudonym ∧
    (getPseudonym "3.0" samplePatient (some (sampleResp 409))).1.idat =
        samplePatient.idat ∧
    (getPseudonym "3.0" samplePatient (some (sampleResp 409))).1.tokenURL =
        samplePatient.tokenURL := by
  have h := getPseudonym_failure_frame "3.0" samplePatient (sampleResp 409)
    (by decide)
  exact ⟨h.1, h.2.1, (h.2.2.2.2.2.1 (by decide)).2⟩

/-! ### C6: `updateIDAT` on a previously pseudonymized patient -/

/-- C6: for every patient whose status is greater than 0, `updateIDAT`
with identity data differing from the current idat in at least one
field (dates compared by time value) resets pseudonym to null and
status to CREATED; with field-by-field equal identity data pseudonym
and status are unchanged; in either case the idat field is replaced by
the newly validated idat. -/
theorem updateIDAT_reset (now : Int) (p : Patient) (f l b : JSVal) (idat : IDAT)
    (hidat : createIDAT now f l b = .ok idat) (hpos : p.status > 0) :
    (idatFieldsEqual p.idat idat = false →
      updateIDAT now p f l b =
        .ok { p with pseudonym := none, status := PatientStatus.CREATED, idat := idat }) ∧
    (idatFieldsEqual p.idat idat = true →
      updateIDAT now p f l b = .ok { p with idat := idat }) := by
  unfold updateIDAT
  rw [hidat]
  constructor <;> intro h <;> simp [h, hpos]

/-- A concrete patient after a successful pseudonymization. -/
def pseudonymizedSample : Patient :=
  ⟨PatientStatus.PSEUDONYMIZED, false, some "PSY1", sampleIDAT, "", false, none, some false⟩

/-- Witness for C6: a concrete pseudonymized patient, updated once with
a different and once with the identical identity. -/
theorem updateIDAT_reset_witness :
    updateIDAT 1000000000000 pseudonymizedSample
      (.str "Grace") (.str "Hopper") (.date ⟨1999, 12, 31, 0⟩) =
      .ok ⟨PatientStatus.CREATED, false, none, ⟨"Grace", "Hopper", ⟨1999, 12, 31, 0⟩⟩,
           "", false, none, some false⟩ ∧
    updateIDAT 1000000000000 pseudonymizedSample
      (.str "Ada") (.str "Lovelace") (.date ⟨2000, 1, 2, 0⟩) =
      .ok { pseudonymizedSample with idat := sampleIDAT } := by
  have h1 := updateIDAT_reset 1000000000000 pseudonymizedSample
    (.str "Grace") (.str "Hopper") (.date ⟨1999, 12, 31, 0⟩)
    ⟨"Grace", "Hopper", ⟨1999, 12, 31, 0⟩⟩ (by decide) (by decide)
  have h2 := updateIDAT_reset 1000000000000 pseudonymizedSample
    (.str "Ada") (.str "Lovelace") (.date ⟨2000, 1, 2, 0⟩) sampleIDAT (by decide) (by decide)
  exact ⟨h1.1 (by decide), h2.2 (by decide)⟩

/-! ### C7: validation contract of `createIDAT` -/

/-- The firstname/lastname argument is a string with non-empty trim. -/
def nameArgValid : JSVal → Bool
  | .str s => !(jsTrim s == "")
  | _ => false

/-- The birthday argument is a string, number or `Date` that parses to
a valid date not lying strictly in the future. -/
def birthdayArgOk (now : Int) : JSVal → Bool
  | .other => false
  | b =>
    match jsNewDate b with
    | none => false
    | some d => decide (d.getTime ≤ now)

/-- An `Except` is an `error` exactly when it is not `ok`. -/
theorem except_error_iff_isOk_false {ε α : Type} (x : Except ε α) :
    (∃ e, x = .error e) ↔ x.isOk = false := by
  cases x <;> simp [Except.isOk, Except.toBool]

/-- `createIDAT` succeeds exactly on valid names and a valid,
non-future birthday. -/
theorem createIDAT_isOk_eq (now : Int) (f l b : JSVal) :
    (createIDAT now f l b).isOk =
      (nameArgValid f && nameArgValid l && birthdayArgOk now b) := by
  cases f with
  | str fs =>
    by_cases hf : jsTrim fs = ""
    · simp [createIDAT, hf, nameArgValid, Except.isOk, Except.toBool]
    · cases l with
      | str ls =>
        by_cases hl : jsTrim ls = ""
        · simp [createIDAT, hf, hl, nameArgValid, Except.isOk, Except.toBool]
        · cases b with
          | other =>
            simp [createIDAT, hf, hl, nameArgValid, birthdayArgOk, Except.isOk, Except.toBool]
          | str s =>
            cases hd : jsParseDate s with
            | none =>
              simp [createIDAT, jsNewDate, hd, hf, hl, nameArgValid, birthdayArgOk,
                Except.isOk, Except.toBool]
            | some d =>
              by_cases hfut : d.getTime ≤ now
              · simp [createIDAT, jsNewDate, hd, hf, hl, nameArgValid, birthdayArgOk,
                  hfut, not_lt.mpr hfut, Except.isOk, Except.toBool]
              · simp [createIDAT, jsNewDate, hd, hf, hl, nameArgValid, birthdayArgOk,
                  hfut, not_le.mp hfut, Except.isOk, Except.toBool]
          | num n =>
            by_cases hfut : (msToJSDate n).getTime ≤ now
            · simp [createIDAT, jsNewDate, hf, hl, nameArgValid, birthdayArgOk,
                hfut, not_lt.mpr hfut, Except.isOk, Except.toBool]
            · simp [createIDAT, jsNewDate, hf, hl, nameArgValid, birthdayArgOk,
                hfut, not_le.mp hfut, Except.isOk, Except.toBool]
          | date d =>
            by_cases hfut : d.getTime ≤ now
            · simp [createIDAT, jsNewDate, hf, hl, nameArgValid, birthdayArgOk,
                hfut, not_lt.mpr hfut, Except.isOk, Except.toBool]
            · simp [createIDAT, jsNewDate, hf, hl, nameArgValid, birthdayArgOk,
                hfut, not_le.mp hfut, Except.isOk, Except.toBool]
      | num n => simp [createIDAT, hf, nameArgValid, Except.isOk, Except.toBool]
      | date d => simp [createIDAT, hf, nameArgValid, Except.isOk, Except.toBool]
      | other => simp [createIDAT, hf, nameArgValid, Except.isOk, Except.toBool]
  | num n => simp [createIDAT, nameArgValid, Except.isOk, Except.toBool]
  | date d => simp [createIDAT, nameArgValid, Except.isOk, Except.toBool]
  | other => simp [createIDAT, nameArgValid, Except.isOk, Except.toBool]

/-- C7: `createIDAT` throws exactly when a name argument is not a
string or trims to the empty string, or the birthday argument is not a
string, number or `Date`, or parses to an invalid date, or lies
strictly in the future; otherwise it returns the trimmed names and the
parsed date.  Patients are constructed only through this validation:
`createPatient` succeeds only with `createIDAT`'s result as idat (and
starts the patient in status CREATED). -/
theorem createIDAT_validation (now : Int) (f l b : JSVal) :
    ((∃ e, createIDAT now f l b = .error e) ↔
      (nameArgValid f = false ∨ nameArgValid l = false ∨ birthdayArgOk now b = false)) ∧
    (∀ fs ls d, f = .str fs → l = .str ls → jsNewDate b = some d →
      d.getTime ≤ now → jsTrim fs ≠ "" → jsTrim ls ≠ "" →
      createIDAT now f l b = .ok ⟨jsTrim fs, jsTrim ls, d⟩) ∧
    (∀ md pt, createPatient now f l b md = .ok pt →
      createIDAT now f l b = .ok pt.idat ∧ pt.status = PatientStatus.CREATED) := by
  refine ⟨?_, ?_, ?_⟩
  · rw [except_error_iff_isOk_false, createIDAT_isOk_eq]
    rcases nameArgValid f with _ | _ <;> rcases nameArgValid l with _ | _ <;>
      rcases birthdayArgOk now b with _ | _ <;> simp
  · intro fs ls d hf hl hd hle hfne hlne
    subst hf; subst hl
    cases b with
    | other => simp [jsNewDate] at hd
    | str s =>
      simp only [jsNewDate] at hd
      simp [createIDAT, jsNewDate, hfne, hlne, hd, not_lt.mpr hle]
    | num n =>
      simp only [jsNewDate, Option.some.injEq] at hd
      simp [createIDAT, jsNewDate, hfne, hlne, hd, not_lt.mpr hle]
    | date d2 =>
      simp only [jsNewDate, Option.some.injEq] at hd
      subst hd
      simp [createIDAT, jsNewDate, hfne, hlne, not_lt.mpr hle]
  · intro md pt h
    unfold createPatient at h
    cases hci : createIDAT now f l b with
    | error e => rw [hci] at h; exact absurd h (by simp)
    | ok idat =>
      rw [hci] at h
      cases hm : md.getD (.str "") with
      | str m =>
        rw [hm] at h
        simp only [Except.ok.injEq] at h
        subst h
        exact ⟨rfl, rfl⟩
      | num n => rw [hm] at h; exact absurd h (by simp)
      | date d => rw [hm] at h; exact absurd h (by simp)
      | other => rw [hm] at h; exact absurd h (by simp)

/-- Witness for C7: a whitespace firstname is rejected, a valid input
yields the trimmed names and parsed date, and `createPatient` builds
exactly on `createIDAT`'s output. -/
theorem createIDAT_validation_witness :
    (∃ e, createIDAT 1000000000000 (.str " ") (.str "Lovelace") (.num 0) = .error e) ∧
    createIDAT 1000000000000 (.str " Ada ") (.str "Lovelace") (.num 0) =
      .ok ⟨"Ada", "Lovelace", ⟨1970, 1, 1, 0⟩⟩ ∧
    createIDAT 1000000000000 (.str "Ada") (.str "Lovelace") (.date ⟨2000, 1, 2, 0⟩) =
      .ok sampleIDAT ∧
    (createPatient 1000000000000 (.str "Ada") (.str "Lovelace")
        (.date ⟨2000, 1, 2, 0⟩) none).map Patient.status = .ok PatientStatus.CREATED := by
  refine ⟨?_, ?_, ?_, ?_⟩
  · exact (createIDAT_validation 1000000000000 (.str " ") (.str "Lovelace") (.num 0)).1.mpr
      (Or.inl (by decide))
  · have h := (createIDAT_validation 1000000000000 (.str " Ada ") (.str "Lovelace")
      (.num 0)).2.1 " Ada " "Lovelace" ⟨1970, 1, 1, 0⟩ rfl rfl (by decide) (by decide)
      (by decide) (by decide)
    rw [h]; decide
  · have h := (createIDAT_validation 1000000000000 (.str "Ada") (.str "Lovelace")
      (.date ⟨2000, 1, 2, 0⟩)).2.1 "Ada" "Lovelace" ⟨2000, 1, 2, 0⟩ rfl rfl (by decide)
      (by decide) (by decide) (by decide)
    rw [h]; decide
  · have hpt : createPatient 1000000000000 (.str "Ada") (.str "Lovelace")
        (.date ⟨2000, 1, 2, 0⟩) none =
        .ok ⟨PatientStatus.CREATED, false, none, sampleIDAT, "", false, none, none⟩ := by
      decide
    have h := (createIDAT_validation 1000000000000 (.str "Ada") (.str "Lovelace")
      (.date ⟨2000, 1, 2, 0⟩)).2.2 none _ hpt
    rw [hpt]
    simp [Except.map, h.2]

/-! ### C2: the dead re-tokenization branch of `resolveConflicts` -/

/-- The direct-resubmission loop of `resolveConflicts` never collects a
key into `invalidTokens`: the guard reads `patient.statusCode`, a
property Patient objects do not have, so it is always `undefined` and
never equal to `TOKEN_INVALID`. -/
theorem resolveConflictsGo_retokenized_empty (apiVersion : String)
    (fetches : Nat → Option HttpResponse) :
    ∀ (keys : List Nat) (m : PMap) (r : RCResult),
      resolveConflictsGo apiVersion fetches m keys = .ok r → r.retokenized = [] := by
  intro keys
  induction keys with
  | nil =>
    intro m r h
    have h2 : Except.ok (⟨m, [], [], [], []⟩ : RCResult) = .ok r := h
    injection h2 with h3
    rw [← h3]
  | cons k rest ih =>
    intro m r h
    simp only [resolveConflictsGo, statusCode] at h
    rw [if_neg (by decide)] at h
    split at h
    · cases h
    · rename_i p2 success heq
      split at h
      · cases h
      · rename_i r2 heq2
        cases h
        show r2.retokenized = []
        exact ih _ _ heq2

/-- A concrete patient left in status TOKEN_INVALID by a 401 outcome
(token URL and callback flag discarded). -/
def tokenInvalidPatient : Patient :=
  ⟨PatientStatus.TOKEN_INVALID, false, none, sampleIDAT, "", false, none, none⟩

/-- C2 (evidence of the divergence): `resolveConflicts` on the single
TOKEN_INVALID record with key 7 does not route it through fresh token
acquisition (`retokenized = []`); instead the record is resubmitted
directly against its stored token URL, which is `null` because the 401
outcome discarded it, and it stays in conflict.  The claim requires the
record to be re-tokenized via `createPseudonyms`. -/
theorem resolveConflicts_token_invalid_direct :
    resolveConflicts "3.0" (fun _ => some (sampleResp 401)) ⟨false, []⟩
      (fun _ => some (sampleResp 401)) [(7, tokenInvalidPatient)] [7] =
      .ok ⟨[(7, tokenInvalidPatient)], [], [7], [], [(7, none)]⟩ := by
  decide

/-! ### C8: token count and positional redemption -/

/-- Pointwise description of the instrumented redemption log of
`createPseudonymsGo`: the record at position `j` of the key list is
redeemed with `urlTokens[i + j]`. -/
theorem createPseudonymsGo_redemption_get? (apiVersion : String) (tr : TokenResponse)
    (fetches : Nat → Option HttpResponse) :
    ∀ (keys : List Nat) (m : PMap) (i : Nat) (r : CPResult),
      createPseudonymsGo apiVersion tr fetches m keys i = .ok r →
      ∀ j : Nat, r.redemptions.get? j =
        (keys.get? j).map (fun k => (k, tr.urlTokens.get? (i + j))) := by
  intro keys
  induction keys with
  | nil =>
    intro m i r h j
    have h2 : Except.ok (⟨m, [], [], []⟩ : CPResult) = .ok r := h
    injection h2 with h3
    rw [← h3]
    simp
  | cons k rest ih =>
    intro m i r h j
    simp only [createPseudonymsGo] at h
    split at h
    · cases h
    · rename_i p2 success heq
      split at h
      · cases h
      · rename_i r2 heq2
        cases h
        cases j with
        | zero => simp
        | succ jj =>
          have hrec := ih _ _ _ heq2 jj
          simp only [List.get?_cons_succ, hrec]
          have harith : i + 1 + jj = i + (jj + 1) := by omega
          rw [harith]

/-- C8: the token-issuance endpoint returns exactly the requested
number of token URLs, and `createPseudonyms` redeems `urlTokens[j]`
exactly for the `j`-th requested record, so (for distinct issued URLs)
no token URL is redeemed by two different records of one batch call. -/
theorem tokens_count_and_positional (mainzellisteUrl : String) (tokenIds : Nat → String)
    (amount : Nat) (apiVersion : String) (tr : TokenResponse)
    (fetches : Nat → Option HttpResponse) (m : PMap) (keys : List Nat) (r : CPResult)
    (h : createPseudonyms apiVersion tr fetches m keys = .ok r) :
    (javaGetPseudonymizationURL mainzellisteUrl tokenIds amount).length = amount ∧
    (∀ j : Nat, r.redemptions.get? j =
      (keys.get? j).map (fun k => (k, tr.urlTokens.get? j))) ∧
    (tr.urlTokens.Nodup →
      ∀ a b : Nat, a ≠ b → a < keys.length → b < keys.length →
        a < tr.urlTokens.length → b < tr.urlTokens.length →
        (r.redemptions.get? a).map Prod.snd ≠ (r.redemptions.get? b).map Prod.snd) := by
  have hget : ∀ j : Nat, r.redemptions.get? j =
      (keys.get? j).map (fun k => (k, tr.urlTokens.get? j)) := by
    intro j
    cases keys with
    | nil =>
      have h2 : Except.ok (⟨m, [], [], []⟩ : CPResult) = .ok r := h
      injection h2 with h3
      rw [← h3]
      simp
    | cons a as =>
      have h2 : createPseudonymsGo apiVersion tr fetches m (a :: as) 0 = .ok r := h
      simpa using createPseudonymsGo_redemption_get? apiVersion tr fetches (a :: as) m 0 r h2 j
  refine ⟨by simp [javaGetPseudonymizationURL], hget, ?_⟩
  intro hnd a b hab ha hb ha2 hb2
  rw [hget a, hget b, List.get?_eq_get ha, List.get?_eq_get hb,
      List.get?_eq_get ha2, List.get?_eq_get hb2]
  intro hcontra
  have h2 : tr.urlTokens.get ⟨a, ha2⟩ = tr.urlTokens.get ⟨b, hb2⟩ := by
    simpa using hcontra
  have h3 := (List.Nodup.get_inj_iff hnd).mp h2
  exact hab (by simpa using congrArg Fin.val h3)

/-- The patient produced by a successful (non-callback) submission of
`samplePatient` in the two-record witness batch. -/
def wPseudonymized : Patient :=
  ⟨PatientStatus.PSEUDONYMIZED, false, some "PSY1", sampleIDAT, "", false, none, some false⟩

/-- The full result of the two-record witness batch. -/
def wCPResult : CPResult :=
  ⟨[(0, wPseudonymized), (1, wPseudonymized)], [0, 1], [],
    [(0, some "u1"), (1, some "u2")]⟩

/-- Witness for C8: two records, two distinct URLs, both submissions
succeeding; the records redeem tokens 0 and 1 respectively and the two
redeemed URLs differ. -/
theorem tokens_count_and_positional_witness :
    (javaGetPseudonymizationURL "https://ml/" (fun _ => "t") 5).length = 5 ∧
    wCPResult.redemptions.get? 0 = some (0, some "u1") ∧
    wCPResult.redemptions.get? 1 = some (1, some "u2") ∧
    (wCPResult.redemptions.get? 0).map Prod.snd ≠
      (wCPResult.redemptions.get? 1).map Prod.snd := by
  have h := tokens_count_and_positional "https://ml/" (fun _ => "t") 5 "3.0"
    ⟨false, ["u1", "u2"]⟩ (fun _ => some (sampleResp 201))
    [(0, samplePatient), (1, samplePatient)] [0, 1] wCPResult (by decide)
  refine ⟨h.1, ?_, ?_,
    h.2.2 (by decide) 0 1 (by decide) (by decide) (by decide) (by decide) (by decide)⟩
  · rw [h.2.1 0]; rfl
  · rw [h.2.1 1]; rfl

/-! ### C4: when a status is CREATED -/

/-- A submission that returns (rather than throws) always leaves one of
the four defined statuses, never CREATED. -/
theorem getPseudonym_ok_status (apiVersion : String) (p : Patient)
    (fr : Option HttpResponse) (q : Patient) (s : Bool)
    (h : getPseudonym apiVersion p fr = (q, .ok s)) :
    q.status = PatientStatus.PSEUDONYMIZED ∨ q.status = PatientStatus.IDAT_INVALID ∨
      q.status = PatientStatus.TOKEN_INVALID ∨ q.status = PatientStatus.IDAT_CONFLICT := by
  have hsnd := congrArg Prod.snd h
  have hfst := congrArg Prod.fst h
  simp only at hsnd hfst
  cases fr with
  | none => simp [getPseudonym] at hsnd
  | some r =>
    rw [← hfst]
    by_cases h1 : r.status = 201
    · left
      simp [getPseudonym, h1]
    · by_cases h2 : r.status = 400
      · right; left
        simp [getPseudonym, h1, h2]
      · by_cases h3 : r.status = 401
        · right; right; left
          simp [getPseudonym, h1, h2, h3]
        · by_cases h4 : r.status = 409
          · right; right; right
            simp [getPseudonym, h1, h2, h3, h4]
          · exfalso
            simp [getPseudonym, h1, h2, h3, h4] at hsnd

/-- C4 (amended): a patient starts in CREATED, and after a returning
operation the status is CREATED exactly when it was CREATED and the
operation was an identity or medical-data update, or the operation was
`updateIDAT` changing the identity while the status was positive (a
prior success), or the operation was `updateMDAT` changing the medical
data while the status was a post-sync state (`> 1`) with a
callback-mediated token. -/
theorem status_created_characterization :
    (∀ (now : Int) (f l b : JSVal) (md : Option JSVal) (pt : Patient),
      createPatient now f l b md = .ok pt → pt.status = PatientStatus.CREATED) ∧
    (∀ (apiVersion : String) (p : Patient) (op : Op) (q : Patient),
      stepOp apiVersion p op = .ok q →
      (q.status = PatientStatus.CREATED ↔
        (p.status = PatientStatus.CREATED ∧ (op.isUpdIDAT = true ∨ op.isUpdMDAT = true)) ∨
        (∃ now f l b idat, op = .updIDAT now f l b ∧ createIDAT now f l b = .ok idat ∧
          p.status > 0 ∧ idatFieldsEqual p.idat idat = false) ∨
        (∃ m, op = .updMDAT m ∧ p.status > 1 ∧ p.mdat ≠ m.getD "" ∧
          p.tokenUseCallback = some true))) := by
  constructor
  · intro now f l b md pt h
    unfold createPatient at h
    cases hci : createIDAT now f l b with
    | error e => rw [hci] at h; cases h
    | ok idat =>
      rw [hci] at h
      cases hm : md.getD (.str "") <;> (rw [hm] at h; cases h) <;> rfl
  · intro apiVersion p op q h
    cases op with
    | updIDAT now f l b =>
      simp only [stepOp, updateIDAT] at h
      split at h
      · cases h
      · rename_i idat heq
        split at h
        · rename_i hcond
          cases h
          simp only [Bool.and_eq_true, decide_eq_true_eq, Bool.not_eq_true'] at hcond
          constructor
          · intro _
            exact Or.inr (Or.inl ⟨now, f, l, b, idat, rfl, heq, hcond.1, hcond.2⟩)
          · intro _
            rfl
        · rename_i hcond
          cases h
          constructor
          · intro hq
            exact Or.inl ⟨hq, Or.inl rfl⟩
          · rintro (⟨hq, _⟩ | ⟨now2, f2, l2, b2, idat2, heqop, hci2, hpos, hne⟩ |
              ⟨m, heqop, _, _, _⟩)
            · exact hq
            · cases heqop
              rw [heq] at hci2
              injection hci2 with hid
              subst hid
              exact absurd (by simp [hpos, hne]) hcond
            · cases heqop
    | updMDAT m =>
      simp only [stepOp, updateMDAT] at h
      split at h
      · rename_i hm
        split at h
        · rename_i hst
          split at h
          · rename_i hcb
            cases h
            simp only [Bool.and_eq_true, decide_eq_true_eq, beq_iff_eq] at hcb
            constructor
            · intro _
              exact Or.inr (Or.inr ⟨m, rfl, hst, hm, hcb.2⟩)
            · intro _
              rfl
          · rename_i hcb
            cases h
            simp only [Bool.and_eq_true, decide_eq_true_eq, beq_iff_eq, not_and] at hcb
            constructor
            · intro hq
              exact absurd hq (by simp [PatientStatus.PSEUDONYMIZED, PatientStatus.CREATED])
            · rintro (⟨hq, _⟩ | ⟨now2, f2, l2, b2, idat2, heqop, _⟩ | ⟨m2, heqop, _, _, hcb2⟩)
              · exact absurd hq (by simp [PatientStatus.CREATED]; omega)
              · cases heqop
              · cases heqop
                exact absurd (hcb (by simp [PatientStatus.PSEUDONYMIZED]; omega)) (by simp [hcb2])
        · rename_i hst
          cases h
          constructor
          · intro hq
            exact Or.inl ⟨hq, Or.inr rfl⟩
          · rintro (⟨hq, _⟩ | ⟨now2, f2, l2, b2, idat2, heqop, _⟩ | ⟨m2, heqop, hst2, _⟩)
            · exact hq
            · cases heqop
            · cases heqop
              exact absurd hst2 hst
      · rename_i hm
        cases h
        constructor
        · intro hq
          exact Or.inl ⟨hq, Or.inr rfl⟩
        · rintro (⟨hq, _⟩ | ⟨now2, f2, l2, b2, idat2, heqop, _⟩ | ⟨m2, heqop, _, hm2, _⟩)
          · exact hq
          · cases heqop
          · cases heqop
            exact absurd hm2 hm
    | submitNew cb url resp =>
      simp only [stepOp] at h
      rcases hg : getPseudonym apiVersion
          { p with tokenUseCallback := some cb, tokenURL := url } resp with ⟨p2, res⟩
      rw [hg] at h
      cases res with
      | error e => cases h
      | ok s =>
        cases h
        have hstat := getPseudonym_ok_status apiVersion _ resp q s hg
        constructor
        · intro hq
          rcases hstat with h1 | h1 | h1 | h1 <;> rw [hq] at h1 <;>
            simp [PatientStatus.CREATED, PatientStatus.PSEUDONYMIZED,
              PatientStatus.IDAT_INVALID, PatientStatus.TOKEN_INVALID,
              PatientStatus.IDAT_CONFLICT] at h1
        · rintro (⟨_, hop | hop⟩ | ⟨now2, f2, l2, b2, idat2, heq, _⟩ | ⟨m2, heq, _⟩) <;>
            first
            | cases heq
            | simp [Op.isUpdIDAT, Op.isUpdMDAT] at hop
    | resubmit resp =>
      simp only [stepOp] at h
      rcases hg : getPseudonym apiVersion p resp with ⟨p2, res⟩
      rw [hg] at h
      cases res with
      | error e => cases h
      | ok s =>
        cases h
        have hstat := getPseudonym_ok_status apiVersion p resp q s hg
        constructor
        · intro hq
          rcases hstat with h1 | h1 | h1 | h1 <;> rw [hq] at h1 <;>
            simp [PatientStatus.CREATED, PatientStatus.PSEUDONYMIZED,
              PatientStatus.IDAT_INVALID, PatientStatus.TOKEN_INVALID,
              PatientStatus.IDAT_CONFLICT] at h1
        · rintro (⟨_, hop | hop⟩ | ⟨now2, f2, l2, b2, idat2, heq, _⟩ | ⟨m2, heq, _⟩) <;>
            first
            | cases heq
            | simp [Op.isUpdIDAT, Op.isUpdMDAT] at hop
    | sendResult success =>
      simp only [stepOp] at h
      cases h
      constructor
      · intro hq
        cases success <;>
          simp [PatientStatus.CREATED, PatientStatus.PROCESSED,
            PatientStatus.NOT_PROCESSED] at hq
      · rintro (⟨_, hop | hop⟩ | ⟨now2, f2, l2, b2, idat2, heq, _⟩ | ⟨m2, heq, _⟩) <;>
          first
          | cases heq
          | simp [Op.isUpdIDAT, Op.isUpdMDAT] at hop
    | requestResult found =>
      simp only [stepOp] at h
      cases found with
      | none =>
        cases h
        constructor
        · intro hq
          simp [PatientStatus.CREATED, PatientStatus.NOT_FOUND] at hq
        · rintro (⟨_, hop | hop⟩ | ⟨now2, f2, l2, b2, idat2, heq, _⟩ | ⟨m2, heq, _⟩) <;>
            first
            | cases heq
            | simp [Op.isUpdIDAT, Op.isUpdMDAT] at hop
      | some mm =>
        cases h
        constructor
        · intro hq
          simp [PatientStatus.CREATED, PatientStatus.FOUND] at hq
        · rintro (⟨_, hop | hop⟩ | ⟨now2, f2, l2, b2, idat2, heq, _⟩ | ⟨m2, heq, _⟩) <;>
            first
            | cases heq
            | simp [Op.isUpdIDAT, Op.isUpdMDAT] at hop

/-- Witness for C4 (amended): a processed patient with a
callback-mediated token falls back to CREATED on a medical-data
change. -/
theorem status_created_characterization_witness :
    stepOp "3.0" ⟨PatientStatus.PROCESSED, false, some "t1", sampleIDAT, "", false, none,
        some true⟩ (.updMDAT (some "m2")) =
      .ok ⟨PatientStatus.CREATED, false, some "t1", sampleIDAT, "m2", false, none,
        some true⟩ ∧
    (⟨PatientStatus.CREATED, false, some "t1", sampleIDAT, "m2", false, none,
        some true⟩ : Patient).status = PatientStatus.CREATED := by
  refine ⟨by decide, ?_⟩
  exact (status_created_characterization.2 "3.0"
    ⟨PatientStatus.PROCESSED, false, some "t1", sampleIDAT, "", false, none, some true⟩
    (.updMDAT (some "m2")) _ (by decide)).mpr
    (Or.inr (Or.inr ⟨some "m2", rfl, by decide, by decide, rfl⟩))

/-- The trace of the C4 counterexample: a callback-mediated submission
succeeds (201), the medical data is sent successfully, then the medical
data is changed. -/
def c4Trace : List Op :=
  [.submitNew true (some "https://ml/patients?tokenId=t1") (some ⟨201, "PSY1", "PSY1", false, ""⟩),
   .sendResult true,
   .updMDAT (some "m2")]

/-- C4 (counterexample to the claimed invariant): starting from a
freshly created patient, the trace `c4Trace` submits the record (so it
was submitted) and never calls `updateIDAT` (so its identity was never
changed), yet the final status is CREATED — `updateMDAT` reset it
because the record was past PSEUDONYMIZED with a callback-mediated
token. -/
theorem status_created_iff_counterexample :
    createPatient 1000000000000 (.str "Ada") (.str "Lovelace") (.date ⟨2000, 1, 2, 0⟩)
        none =
      .ok ⟨PatientStatus.CREATED, false, none, sampleIDAT, "", false, none, none⟩ ∧
    runTrace "3.0" ⟨PatientStatus.CREATED, false, none, sampleIDAT, "", false, none, none⟩
        c4Trace =
      .ok ⟨PatientStatus.CREATED, false, some "t1", sampleIDAT, "m2", false, none,
        some true⟩ ∧
    c4Trace.any Op.isSubmission = true ∧
    c4Trace.all (fun op => !op.isUpdIDAT) = true := by
  refine ⟨by decide, by decide, by decide, by decide⟩

/-! ### C5: deduplication and sizing of depseudonymization -/

/-- The fuel argument is irrelevant as long as it bounds the list
length. -/
theorem distinctKeepFirstGo_fuel :
    ∀ (m n : Nat) (l : List String), l.length ≤ m → l.length ≤ n →
      distinctKeepFirstGo m l = distinctKeepFirstGo n l := by
  intro m
  induction m with
  | zero =>
    intro n l hm hn
    cases l with
    | nil => cases n <;> rfl
    | cons p rest => simp at hm
  | succ m ih =>
    intro n l hm hn
    cases l with
    | nil => cases n <;> rfl
    | cons p rest =>
      cases n with
      | zero => simp at hn
      | succ n =>
        simp only [distinctKeepFirstGo]
        congr 1
        exact ih n _ (le_trans (List.length_filter_le _ _) (by simpa using hm))
          (le_trans (List.length_filter_le _ _) (by simpa using hn))

/-- Unfolding equation of the deduplication on a non-empty list. -/
theorem distinctKeepFirst_cons (p : String) (rest : List String) :
    distinctKeepFirst (p :: rest) =
      p :: distinctKeepFirst (rest.filter (fun q => q ≠ p)) := by
  unfold distinctKeepFirst
  simp only [List.length_cons, distinctKeepFirstGo]
  congr 1
  exact distinctKeepFirstGo_fuel rest.length (rest.filter (fun q => q ≠ p)).length _
    (List.length_filter_le _ _) (le_refl _)

/-- Elements of the deduplicated list come from the original list. -/
theorem distinctKeepFirst_mem (x : String) : ∀ l, x ∈ distinctKeepFirst l → x ∈ l := by
  have H : ∀ n (l : List String), l.length ≤ n → x ∈ distinctKeepFirst l → x ∈ l := by
    intro n
    induction n with
    | zero =>
      intro l hl hx
      cases l with
      | nil => simp [distinctKeepFirst, distinctKeepFirstGo] at hx
      | cons p rest => simp at hl
    | succ n ih =>
      intro l hl hx
      cases l with
      | nil => simp [distinctKeepFirst, distinctKeepFirstGo] at hx
      | cons p rest =>
        rw [distinctKeepFirst_cons] at hx
        simp only [List.mem_cons] at hx
        rcases hx with hx | hx
        · exact hx ▸ List.mem_cons_self p rest
        · have hlen : (rest.filter (fun q => q ≠ p)).length ≤ n :=
            le_trans (List.length_filter_le _ _) (by simpa using hl)
          exact List.mem_cons_of_mem _ (List.mem_filter.mp (ih _ hlen hx)).1
  exact fun l => H l.length l (le_refl _)

/-- The deduplicated list has no duplicates. -/
theorem distinctKeepFirst_nodup : ∀ l, (distinctKeepFirst l).Nodup := by
  have H : ∀ n (l : List String), l.length ≤ n → (distinctKeepFirst l).Nodup := by
    intro n
    induction n with
    | zero =>
      intro l hl
      cases l with
      | nil => simp [distinctKeepFirst, distinctKeepFirstGo]
      | cons p rest => simp at hl
    | succ n ih =>
      intro l hl
      cases l with
      | nil => simp [distinctKeepFirst, distinctKeepFirstGo]
      | cons p rest =>
        have hlen : (rest.filter (fun q => q ≠ p)).length ≤ n :=
          le_trans (List.length_filter_le _ _) (by simpa using hl)
        rw [distinctKeepFirst_cons]
        simp only [List.nodup_cons]
        refine ⟨fun hmem => ?_, ih _ hlen⟩
        have := (List.mem_filter.mp (distinctKeepFirst_mem p _ hmem)).2
        simp at this
  exact fun l => H l.length l (le_refl _)

/-- Deduplication is insensitive to appending a copy of the input. -/
theorem distinctKeepFirst_append_self : ∀ l, distinctKeepFirst (l ++ l) = distinctKeepFirst l := by
  have H : ∀ n (l : List String), l.length ≤ n →
      distinctKeepFirst (l ++ l) = distinctKeepFirst l := by
    intro n
    induction n with
    | zero =>
      intro l hl
      cases l with
      | nil => rfl
      | cons p rest => simp at hl
    | succ n ih =>
      intro l hl
      cases l with
      | nil => rfl
      | cons p rest =>
        have hstep : (p :: rest) ++ (p :: rest) = p :: (rest ++ p :: rest) := by simp
        rw [hstep, distinctKeepFirst_cons, distinctKeepFirst_cons]
        congr 1
        have hfilter : (rest ++ p :: rest).filter (fun q => q ≠ p) =
            rest.filter (fun q => q ≠ p) ++ rest.filter (fun q => q ≠ p) := by
          rw [List.filter_append]
          congr 1
          simp [List.filter_cons]
        rw [hfilter]
        exact ih _ (le_trans (List.length_filter_le _ _) (by simpa using hl))
  exact fun l => H l.length l (le_refl _)

/-- `Map.set` on a key not yet present appends the binding. -/
theorem dmapSet_not_mem (k : String) (v : DepsEntry) :
    ∀ m : DMap, k ∉ m.map Prod.fst → dmapSet m k v = m ++ [(k, v)] := by
  intro m
  induction m with
  | nil => intro _; rfl
  | cons a rest ih =>
    intro h
    obtain ⟨a1, a2⟩ := a
    simp only [List.map_cons, List.mem_cons] at h
    push_neg at h
    simp only [dmapSet, if_neg (Ne.symm h.1)]
    rw [ih h.2]
    exact (List.cons_append _ _ _).symm

/-- Entries returned by the (spec-modelled) identity retrieval are the
service's stored records of the requested pseudonyms. -/
theorem serverPatientData_mem (known : String → Option MLRecord) :
    ∀ valid pr, pr ∈ serverPatientData known valid → known pr.1 = some pr.2 := by
  intro valid
  induction valid with
  | nil => intro pr h; exact absurd h (List.not_mem_nil pr)
  | cons p rest ih =>
    intro pr h
    unfold serverPatientData at h
    rw [List.filterMap_cons] at h
    cases hk : known p with
    | none => rw [hk] at h; exact ih pr h
    | some r =>
      rw [hk] at h
      have h2 : pr ∈ (p, r) :: serverPatientData known rest := h
      rcases List.mem_cons.mp h2 with h1 | h1
      · rw [h1]; exact hk
      · exact ih pr h1

/-- The keys of the (spec-modelled) retrieval response are exactly the
requested pseudonyms when all of them are resolvable. -/
theorem serverPatientData_fst (known : String → Option MLRecord) :
    ∀ valid, (∀ p ∈ valid, (known p).isSome = true) →
      (serverPatientData known valid).map Prod.fst = valid := by
  intro valid
  induction valid with
  | nil => intro _; rfl
  | cons p rest ih =>
    intro h
    have hp := h p (List.mem_cons_self p rest)
    cases hk : known p with
    | none => rw [hk] at hp; simp at hp
    | some r =>
      simp only [serverPatientData, List.filterMap_cons, hk, Option.map_some,
        List.map_cons]
      exact congrArg (p :: ·) (ih (fun q hq => h q (List.mem_cons_of_mem p hq)))

/-- The response-processing fold of `handleDepseudonymization` succeeds
when each entry reconstructs, and produces one map binding per entry
(in order) after the accumulator. -/
theorem buildDepsMap_spec (now : Int) :
    ∀ (entries : List (String × MLRecord)) (acc : DMap),
      (∀ pr ∈ entries, (reconstructIDAT now pr.2.fields).isOk = true) →
      (entries.map Prod.fst).Nodup →
      (∀ k ∈ entries.map Prod.fst, k ∉ acc.map Prod.fst) →
      ∃ dm, buildDepsMap now entries acc = .ok dm ∧
        dm.map Prod.fst = acc.map Prod.fst ++ entries.map Prod.fst := by
  intro entries
  induction entries with
  | nil =>
    intro acc _ _ _
    exact ⟨acc, rfl, by simp⟩
  | cons pr rest ih =>
    intro acc hok hnd hdisj
    rcases pr with ⟨p, r⟩
    have h1 := hok (p, r) (List.mem_cons_self _ _)
    cases hrec : reconstructIDAT now r.fields with
    | error e => rw [hrec] at h1; simp [Except.isOk, Except.toBool] at h1
    | ok idat =>
      have hpnotin : p ∉ acc.map Prod.fst :=
        hdisj p (by simp)
      have hset := dmapSet_not_mem p ⟨idat, r.tentative⟩ acc hpnotin
      simp only [List.map_cons, List.nodup_cons] at hnd
      have hdisj2 : ∀ k ∈ rest.map Prod.fst, k ∉ (dmapSet acc p ⟨idat, r.tentative⟩).map Prod.fst := by
        intro k hk
        rw [hset]
        simp only [List.map_append, List.mem_append, List.map_cons, List.map_nil]
        rintro (hmem | hmem)
        · exact hdisj k (by simp [hk]) hmem
        · simp only [List.mem_singleton] at hmem
          exact hnd.1 (hmem ▸ hk)
      obtain ⟨dm, hdm, hkeys⟩ := ih (dmapSet acc p ⟨idat, r.tentative⟩)
        (fun q hq => hok q (List.mem_cons_of_mem _ hq)) hnd.2 hdisj2
      refine ⟨dm, ?_, ?_⟩
      · simp only [buildDepsMap, hrec]
        exact hdm
      · rw [hkeys, hset]
        simp

/-- Duplicating the input does not change the outcome of
`handleDepseudonymization` at all: the (spec-modelled) token exchange
deduplicates first. -/
theorem handleDepseudonymization_dup (now : Int) (known : String → Option MLRecord)
    (readURL : String) (ps : List String) :
    handleDepseudonymization now known readURL (ps ++ ps) =
      handleDepseudonymization now known readURL ps := by
  have hempty : (ps ++ ps).isEmpty = ps.isEmpty := by cases ps <;> rfl
  simp only [handleDepseudonymization, serverReadPatients, hempty,
    distinctKeepFirst_append_self]

/-- C5: `depseudonymize` deduplicates the input before the read-token
exchange (duplicated input changes nothing), separates the unresolvable
pseudonyms into the invalid list, and the output maps each distinct
resolvable pseudonym to exactly one entry, so the result is sized by
the number of distinct resolvable pseudonyms rather than by input
length. -/
theorem depseudonymize_distinct (now : Int) (known : String → Option MLRecord)
    (readURL : String) (pseudonyms : List String)
    (hurl : readURL ≠ "")
    (hwf : ∀ p r, known p = some r → (reconstructIDAT now r.fields).isOk = true) :
    ∃ dm inv, handleDepseudonymization now known readURL pseudonyms = .ok (dm, inv) ∧
      dm.map Prod.fst =
        (distinctKeepFirst pseudonyms).filter (fun p => (known p).isSome) ∧
      (dm.map Prod.fst).Nodup ∧
      dm.length =
        ((distinctKeepFirst pseudonyms).filter (fun p => (known p).isSome)).length ∧
      inv = (distinctKeepFirst pseudonyms).filter (fun p => (known p).isNone) ∧
      handleDepseudonymization now known readURL (pseudonyms ++ pseudonyms) =
        handleDepseudonymization now known readURL pseudonyms := by
  by_cases hps : pseudonyms.isEmpty
  · have hnil : pseudonyms = [] := by
      cases pseudonyms
      · rfl
      · simp at hps
    subst hnil
    have hdkf : distinctKeepFirst ([] : List String) = [] := rfl
    exact ⟨[], [], by simp [handleDepseudonymization], by simp [hdkf], by simp,
      by simp [hdkf], by simp [hdkf], rfl⟩
  · have hvalid_nodup : ((distinctKeepFirst pseudonyms).filter
        (fun p => (known p).isSome)).Nodup :=
      List.Nodup.filter _ (distinctKeepFirst_nodup pseudonyms)
    set valid := (distinctKeepFirst pseudonyms).filter (fun p => (known p).isSome) with hvalid
    by_cases hv : valid.isEmpty
    · have hvnil : valid = [] := by
        cases hval2 : valid
        · rfl
        · rw [hval2] at hv; simp at hv
      refine ⟨[], (distinctKeepFirst pseudonyms).filter (fun p => (known p).isNone),
        ?_, by simp [hvnil], by simp, by simp [hvnil], rfl,
        handleDepseudonymization_dup now known readURL pseudonyms⟩
      simp only [handleDepseudonymization, serverReadPatients, hps, Bool.false_eq_true,
        if_false, ← hvalid, hv, if_true]
    · have hvmem : ∀ p ∈ valid, (known p).isSome = true := by
        intro p hp
        exact (List.mem_filter.mp hp).2
      have hok : ∀ pr ∈ serverPatientData known valid,
          (reconstructIDAT now pr.2.fields).isOk = true := by
        intro pr hpr
        exact hwf pr.1 pr.2 (serverPatientData_mem known valid pr hpr)
      have hfst := serverPatientData_fst known valid hvmem
      obtain ⟨dm, hdm, hkeys⟩ := buildDepsMap_spec now (serverPatientData known valid) []
        hok (by rw [hfst]; exact hvalid_nodup) (by simp)
      have hB : dm.map Prod.fst = valid := by
        rw [hkeys, hfst]
        simp
      have hA : handleDepseudonymization now known readURL pseudonyms =
          .ok (dm, (distinctKeepFirst pseudonyms).filter (fun p => (known p).isNone)) := by
        simp only [handleDepseudonymization, serverReadPatients, hps, Bool.false_eq_true,
          if_false, ← hvalid, hv, if_neg hurl, hdm]
      have hC : (dm.map Prod.fst).Nodup := by
        rw [hB]
        exact hvalid_nodup
      have hD : dm.length = valid.length := by
        have hlen := congrArg List.length hB
        simpa using hlen
      exact ⟨dm, (distinctKeepFirst pseudonyms).filter (fun p => (known p).isNone),
        hA, hB, hC, hD, rfl, handleDepseudonymization_dup now known readURL pseudonyms⟩

/-- The service store of the C5 witness: two resolvable pseudonyms. -/
def wKnown : String → Option MLRecord := fun p =>
  if p = "PSA" then some ⟨⟨"Ada", "Lovelace", "02", "01", "2000"⟩, false⟩
  else if p = "PSB" then some ⟨⟨"Bob", "Builder", "03", "04", "1999"⟩, true⟩
  else none

/-- Witness for C5: the input `["PSA", "PSB", "PSA", "PSC"]` (four
entries, one duplicate, one unresolvable) yields a map of size two and
the invalid list `["PSC"]`. -/
theorem depseudonymize_distinct_witness :
    ∃ dm inv, handleDepseudonymization 1000000000000 wKnown "https://ml/read"
        ["PSA", "PSB", "PSA", "PSC"] = .ok (dm, inv) ∧
      dm.length = 2 ∧ inv = ["PSC"] := by
  have hwf : ∀ p r, wKnown p = some r →
      (reconstructIDAT 1000000000000 r.fields).isOk = true := by
    intro p r h
    unfold wKnown at h
    split_ifs at h with h1 h2
    · injection h with h3
      rw [← h3]
      decide
    · injection h with h3
      rw [← h3]
      decide
  obtain ⟨dm, inv, h1, _, _, h4, h5, _⟩ := depseudonymize_distinct 1000000000000 wKnown
    "https://ml/read" ["PSA", "PSB", "PSA", "PSC"] (by decide) hwf
  refine ⟨dm, inv, h1, ?_, ?_⟩
  · rw [h4]
    decide
  · rw [h5]
    decide

/-! ### C9: pseudonymize-then-depseudonymize round trip -/

/-- A value below ten prints as its single digit, whatever the fuel. -/
theorem natDigitsGo_small (fuel k : Nat) (h : k < 10) :
    natDigitsGo fuel k = [digitChar k] := by
  cases fuel with
  | zero => rfl
  | succ f => simp [natDigitsGo, h]

/-- The fuel of `natDigitsGo` is irrelevant above the value. -/
theorem natDigitsGo_fuel :
    ∀ (f1 : Nat), ∀ (f2 n : Nat), n ≤ f1 → n ≤ f2 →
      natDigitsGo f1 n = natDigitsGo f2 n := by
  intro f1
  induction f1 with
  | zero =>
    intro f2 n h1 h2
    have : n = 0 := by omega
    subst this
    rw [natDigitsGo_small 0 0 (by omega), natDigitsGo_small f2 0 (by omega)]
  | succ f ih =>
    intro f2 n h1 h2
    by_cases hn : n < 10
    · rw [natDigitsGo_small _ _ hn, natDigitsGo_small _ _ hn]
    · cases f2 with
      | zero => omega
      | succ f2 =>
        simp only [natDigitsGo, if_neg hn]
        congr 1
        exact ih f2 (n / 10) (by omega) (by omega)

/-- One-digit rendering. -/
theorem natDigits_one (n : Nat) (h : n < 10) : natDigits n = [digitChar n] :=
  natDigitsGo_small n n h

/-- Two-digit rendering. -/
theorem natDigits_two (n : Nat) (h1 : 10 ≤ n) (h2 : n ≤ 99) :
    natDigits n = [digitChar (n / 10), digitChar (n % 10)] := by
  unfold natDigits
  cases n with
  | zero => omega
  | succ m =>
    simp only [natDigitsGo, if_neg (by omega : ¬m + 1 < 10)]
    rw [natDigitsGo_small m ((m + 1) / 10) (by omega)]
    rfl

/-- Three-digit rendering. -/
theorem natDigits_three (n : Nat) (h1 : 100 ≤ n) (h2 : n ≤ 999) :
    natDigits n = [digitChar (n / 100), digitChar (n / 10 % 10), digitChar (n % 10)] := by
  unfold natDigits
  cases n with
  | zero => omega
  | succ m =>
    simp only [natDigitsGo, if_neg (by omega : ¬m + 1 < 10)]
    rw [natDigitsGo_fuel m ((m + 1) / 10) ((m + 1) / 10) (by omega) (le_refl _)]
    rw [show natDigitsGo ((m + 1) / 10) ((m + 1) / 10) = natDigits ((m + 1) / 10) from rfl]
    rw [natDigits_two ((m + 1) / 10) (by omega) (by omega)]
    have hdiv : (m + 1) / 10 / 10 = (m + 1) / 100 := by
      rw [Nat.div_div_eq_div_mul]
    rw [hdiv]
    rfl

/-- Four-digit rendering. -/
theorem natDigits_four (n : Nat) (h1 : 1000 ≤ n) (h2 : n ≤ 9999) :
    natDigits n = [digitChar (n / 1000), digitChar (n / 100 % 10),
      digitChar (n / 10 % 10), digitChar (n % 10)] := by
  unfold natDigits
  cases n with
  | zero => omega
  | succ m =>
    simp only [natDigitsGo, if_neg (by omega : ¬m + 1 < 10)]
    rw [natDigitsGo_fuel m ((m + 1) / 10) ((m + 1) / 10) (by omega) (le_refl _)]
    rw [show natDigitsGo ((m + 1) / 10) ((m + 1) / 10) = natDigits ((m + 1) / 10) from rfl]
    rw [natDigits_three ((m + 1) / 10) (by omega) (by omega)]
    have hdiv1 : (m + 1) / 10 / 100 = (m + 1) / 1000 := by
      rw [Nat.div_div_eq_div_mul]
    have hdiv2 : (m + 1) / 10 / 10 = (m + 1) / 100 := by
      rw [Nat.div_div_eq_div_mul]
    rw [hdiv1, hdiv2]
    rfl

/-- Digit characters are digits. -/
theorem digitChar_isDigit (k : Nat) (h : k < 10) : (digitChar k).isDigit = true := by
  interval_cases k <;> decide

/-- `digitVal` inverts `digitChar` below ten. -/
theorem digitVal_digitChar (k : Nat) (h : k < 10) : digitVal (digitChar k) = k := by
  interval_cases k <;> decide

/-- A nonnegative number prints without a sign. -/
theorem jsIntToString_nonneg (n : Int) (h : 0 ≤ n) :
    jsIntToString n = natPrint n.toNat := by
  unfold jsIntToString
  rw [if_neg (not_lt.mpr h)]

/-- Character data of the padded two-digit rendering of a day or month
value. -/
theorem pad2_data (n : Int) (h1 : 1 ≤ n) (h2 : n ≤ 31) :
    (pad2Str (jsIntToString n)).data =
      [digitChar (n.toNat / 10), digitChar (n.toNat % 10)] := by
  rw [jsIntToString_nonneg n (by omega)]
  unfold natPrint pad2Str
  by_cases h : n.toNat < 10
  · rw [natDigits_one n.toNat h]
    rw [if_pos (by rw [String.length_mk]; rfl)]
    rw [String.data_append]
    have hq : n.toNat / 10 = 0 := by omega
    rw [hq, Nat.mod_eq_of_lt h]
    rfl
  · rw [natDigits_two n.toNat (by omega) (by omega)]
    rw [if_neg (by rw [String.length_mk]; simp)]

/-- Character data of the four-digit year rendering. -/
theorem year_data (y : Int) (h1 : 1000 ≤ y) (h2 : y ≤ 9999) :
    (jsIntToString y).data =
      [digitChar (y.toNat / 1000), digitChar (y.toNat / 100 % 10),
       digitChar (y.toNat / 10 % 10), digitChar (y.toNat % 10)] := by
  rw [jsIntToString_nonneg y (by omega)]
  unfold natPrint
  rw [natDigits_four y.toNat (by omega) (by omega)]

/-- Parsing the ISO string assembled from a year, a padded month and a
padded day recovers exactly the original components at midnight. -/
theorem jsParseDate_iso (y m d : Int) (hy1 : 1000 ≤ y) (hy2 : y ≤ 9999)
    (hm1 : 1 ≤ m) (hm2 : m ≤ 12) (hd1 : 1 ≤ d) (hd2 : d ≤ 31)
    (hdm : d ≤ daysInMonth y m) :
    jsParseDate (jsIntToString y ++ "-" ++ pad2Str (jsIntToString m) ++ "-" ++
        pad2Str (jsIntToString d)) = some ⟨y, m, d, 0⟩ := by
  unfold jsParseDate
  have hdata : (jsIntToString y ++ "-" ++ pad2Str (jsIntToString m) ++ "-" ++
      pad2Str (jsIntToString d)).data =
      [digitChar (y.toNat / 1000), digitChar (y.toNat / 100 % 10),
       digitChar (y.toNat / 10 % 10), digitChar (y.toNat % 10), '-',
       digitChar (m.toNat / 10), digitChar (m.toNat % 10), '-',
       digitChar (d.toNat / 10), digitChar (d.toNat % 10)] := by
    rw [String.data_append, String.data_append, String.data_append, String.data_append,
      year_data y hy1 hy2, pad2_data m hm1 (by omega), pad2_data d hd1 hd2]
    rfl
  rw [hdata]
  simp only [parseISOChars]
  rw [if_pos ⟨trivial, trivial, digitChar_isDigit _ (by omega), digitChar_isDigit _ (by omega),
    digitChar_isDigit _ (by omega), digitChar_isDigit _ (by omega),
    digitChar_isDigit _ (by omega), digitChar_isDigit _ (by omega),
    digitChar_isDigit _ (by omega), digitChar_isDigit _ (by omega)⟩]
  have hyv : ((((digitVal (digitChar (y.toNat / 1000)) * 10 +
      digitVal (digitChar (y.toNat / 100 % 10))) * 10 +
      digitVal (digitChar (y.toNat / 10 % 10))) * 10 +
      digitVal (digitChar (y.toNat % 10)) : Nat) : Int) = y := by
    rw [digitVal_digitChar _ (by omega), digitVal_digitChar _ (by omega),
      digitVal_digitChar _ (by omega), digitVal_digitChar _ (by omega)]
    omega
  have hmv : ((digitVal (digitChar (m.toNat / 10)) * 10 +
      digitVal (digitChar (m.toNat % 10)) : Nat) : Int) = m := by
    rw [digitVal_digitChar _ (by omega), digitVal_digitChar _ (by omega)]
    omega
  have hdv : ((digitVal (digitChar (d.toNat / 10)) * 10 +
      digitVal (digitChar (d.toNat % 10)) : Nat) : Int) = d := by
    rw [digitVal_digitChar _ (by omega), digitVal_digitChar _ (by omega)]
    omega
  rw [hyv, hmv, hdv]
  rw [if_pos ⟨hm1, hm2, hd1, hdm⟩]

/-- C9 (amended): for a valid, trimmed identity with a four-digit birth
year, submitting the identity and reconstructing it from the echoed
fields returns the same firstname and lastname and the birthday
truncated to UTC midnight of its calendar date; the reconstructed
identity equals the original exactly when the original birthday is a
midnight. -/
theorem pseudonymize_depseudonymize_roundtrip (now : Int) (idat : IDAT)
    (hfne : idat.firstname ≠ "") (hf : jsTrim idat.firstname = idat.firstname)
    (hlne : idat.lastname ≠ "") (hl : jsTrim idat.lastname = idat.lastname)
    (hval : idat.birthday.valid)
    (hy1 : 1000 ≤ idat.birthday.year) (hy2 : idat.birthday.year ≤ 9999)
    (hnow : idat.birthday.getTime ≤ now) :
    reconstructIDAT now (patientFormFields idat) =
      .ok ⟨idat.firstname, idat.lastname,
           ⟨idat.birthday.year, idat.birthday.month, idat.birthday.day, 0⟩⟩ ∧
    (reconstructIDAT now (patientFormFields idat) = .ok idat ↔
      idat.birthday.msInDay = 0) := by
  obtain ⟨hm1, hm2, hd1, hd2, hms1, hms2⟩ := hval
  have hd31 : idat.birthday.day ≤ 31 := by
    have : daysInMonth idat.birthday.year idat.birthday.month ≤ 31 := by
      unfold daysInMonth
      split_ifs <;> omega
    omega
  have hmonth : idat.birthday.getMonth + 1 = idat.birthday.month := by
    unfold JSDate.getMonth
    omega
  have hparse := jsParseDate_iso idat.birthday.year idat.birthday.month idat.birthday.day
    hy1 hy2 hm1 hm2 hd1 hd31 hd2
  have hmain : reconstructIDAT now (patientFormFields idat) =
      .ok ⟨idat.firstname, idat.lastname,
           ⟨idat.birthday.year, idat.birthday.month, idat.birthday.day, 0⟩⟩ := by
    unfold reconstructIDAT patientFormFields createIDAT
    simp only [JSDate.getDate, JSDate.getFullYear, hmonth]
    rw [hf, if_neg hfne, hl, if_neg hlne]
    have hnd : jsNewDate (.str (jsIntToString idat.birthday.year ++ "-" ++
        pad2Str (jsIntToString idat.birthday.month) ++ "-" ++
        pad2Str (jsIntToString idat.birthday.day))) =
        some ⟨idat.birthday.year, idat.birthday.month, idat.birthday.day, 0⟩ := by
      simp only [jsNewDate]
      exact hparse
    simp only [hnd]
    rw [if_neg (by
      unfold JSDate.getTime at hnow ⊢
      simp only at hnow ⊢
      omega)]
  refine ⟨hmain, ?_⟩
  rw [hmain]
  constructor
  · intro heq
    injection heq with heq2
    have : (⟨idat.birthday.year, idat.birthday.month, idat.birthday.day, 0⟩ : JSDate) =
        idat.birthday := congrArg IDAT.birthday heq2
    have hb := congrArg JSDate.msInDay this
    simpa using hb.symm
  · intro hms
    congr 1
    cases idat with
    | mk f l b =>
      cases b
      simp only at hms
      simp [hms]

/-- Witness for C9 (amended): the identity with a midnight birthday
round-trips exactly. -/
theorem pseudonymize_depseudonymize_roundtrip_witness :
    reconstructIDAT 1000000000000 (patientFormFields sampleIDAT) = .ok sampleIDAT := by
  have h := pseudonymize_depseudonymize_roundtrip 1000000000000 sampleIDAT
    (by decide) (by decide) (by decide) (by decide) (by decide) (by decide) (by decide)
    (by decide)
  exact h.2.mpr rfl

/-- C9 (counterexample to exact equality): an identity whose birthday
carries a time of day (01:00) comes back with the birthday truncated to
midnight, so the reconstructed identity differs from the original. -/
theorem roundtrip_counterexample :
    reconstructIDAT 1000000000000
        (patientFormFields ⟨"Ada", "Lovelace", ⟨2000, 1, 1, 3600000⟩⟩) =
      .ok ⟨"Ada", "Lovelace", ⟨2000, 1, 1, 0⟩⟩ ∧
    (⟨"Ada", "Lovelace", ⟨2000, 1, 1, 0⟩⟩ : IDAT) ≠
      ⟨"Ada", "Lovelace", ⟨2000, 1, 1, 3600000⟩⟩ := by
  exact ⟨by decide, by decide⟩

end Mainzelhandler
